import Mathlib

/-!
Verification development for lib/sitemap.js: URL-entry normalization,
XML serialization, caching, and multi-file partitioning logic.

Machine strings are modelled as Lean String values, JS numbers used as
counters and timestamps as Nat (the counter in the SitemapIndex
completion logic, which can conceptually go below zero, as Int), JS
arrays as List, and absent optional values as Option.
-/

/-! The partitioner: lodash chunk

The SitemapIndex constructor partitions the URL list with
lodash chunk(urls, size): contiguous groups of length size, the last
group holding the remainder; a size of zero (or an empty list) yields
no groups. -/

def chunkFuel {α : Type} (size : Nat) : Nat → List α → List (List α)
  | _, [] => []
  | 0, _ :: _ => []
  | fuel + 1, x :: xs => (x :: xs).take size :: chunkFuel size fuel ((x :: xs).drop size)

def chunk {α : Type} (size : Nat) (l : List α) : List (List α) :=
  if size = 0 then [] else chunkFuel size l.length l

theorem chunkFuel_congr {α : Type} (size : Nat) (hs : size ≠ 0) :
    ∀ (f1 f2 : Nat) (l : List α), l.length ≤ f1 → l.length ≤ f2 →
      chunkFuel size f1 l = chunkFuel size f2 l := by
  intro f1
  induction f1 with
  | zero =>
    intro f2 l h1 h2
    cases l with
    | nil => cases f2 <;> rfl
    | cons x xs => simp at h1
  | succ f ih =>
    intro f2 l h1 h2
    cases l with
    | nil => cases f2 <;> rfl
    | cons x xs =>
      obtain ⟨g, rfl⟩ : ∃ g, f2 = g + 1 := by
        cases f2 with
        | zero => simp at h2
        | succ g => exact ⟨g, rfl⟩
      simp only [chunkFuel]
      congr 1
      apply ih
      · simp only [List.length_drop, List.length_cons]
        simp only [List.length_cons] at h1
        omega
      · simp only [List.length_drop, List.length_cons]
        simp only [List.length_cons] at h2
        omega

theorem chunk_nil {α : Type} (size : Nat) : chunk (α := α) size [] = [] := by
  unfold chunk
  split <;> rfl

theorem chunk_cons {α : Type} (size : Nat) (x : α) (xs : List α) (h : size ≠ 0) :
    chunk size (x :: xs) = (x :: xs).take size :: chunk size ((x :: xs).drop size) := by
  unfold chunk
  rw [if_neg h, if_neg h, List.length_cons, chunkFuel]
  congr 1
  apply chunkFuel_congr size h
  · simp only [List.length_drop, List.length_cons]
    omega
  · exact le_refl _

theorem chunk_flatten {α : Type} (size : Nat) (h : size ≠ 0) (l : List α) :
    (chunk size l).flatten = l := by
  match l with
  | [] => simp [chunk_nil]
  | x :: xs =>
    rw [chunk_cons size x xs h, List.flatten_cons,
      chunk_flatten size h ((x :: xs).drop size)]
    exact List.take_append_drop size (x :: xs)
termination_by l.length
decreasing_by
  simp only [List.length_drop, List.length_cons]
  omega

theorem chunk_length {α : Type} (size : Nat) (h : size ≠ 0) (l : List α) :
    (chunk size l).length = (l.length + size - 1) / size := by
  match l with
  | [] =>
    rw [chunk_nil]
    simp only [List.length_nil, Nat.zero_add]
    exact (Nat.div_eq_of_lt (by omega)).symm
  | x :: xs =>
    rw [chunk_cons size x xs h]
    rw [List.length_cons, chunk_length size h ((x :: xs).drop size)]
    simp only [List.length_drop, List.length_cons]
    have hpos : 0 < size := Nat.pos_of_ne_zero h
    have hrw : xs.length + 1 + size - 1 = xs.length + size := by omega
    rw [hrw, Nat.add_div_right _ hpos]
    rcases le_or_lt (xs.length + 1) size with hle | hlt
    · have h0 : xs.length + 1 - size = 0 := by omega
      rw [h0]
      have hz : 0 + size - 1 < size := by omega
      have hz2 : xs.length < size := by omega
      rw [Nat.div_eq_of_lt hz, Nat.div_eq_of_lt hz2]
    · have hrw2 : xs.length + 1 - size + size - 1 = xs.length := by omega
      rw [hrw2]
termination_by l.length
decreasing_by
  simp only [List.length_drop, List.length_cons]
  omega

theorem chunk_mem_length {α : Type} (size : Nat) (h : size ≠ 0) (l : List α) :
    ∀ c ∈ chunk size l, 0 < c.length ∧ c.length ≤ size := by
  match l with
  | [] => simp [chunk_nil]
  | x :: xs =>
    rw [chunk_cons size x xs h]
    intro c hc
    rcases List.mem_cons.mp hc with hc1 | hc2
    · subst hc1
      constructor
      · simp only [List.length_take, List.length_cons]
        omega
      · simp only [List.length_take]
        exact Nat.min_le_left _ _
    · exact chunk_mem_length size h ((x :: xs).drop size) c hc2
termination_by l.length
decreasing_by
  simp only [List.length_drop, List.length_cons]
  omega

theorem chunk_eq_nil_iff {α : Type} (size : Nat) (h : size ≠ 0) (l : List α) :
    chunk size l = [] ↔ l = [] := by
  cases l with
  | nil => simp [chunk_nil]
  | cons x xs =>
    rw [chunk_cons size x xs h]
    simp

theorem chunk_dropLast_length {α : Type} (size : Nat) (h : size ≠ 0) (l : List α) :
    ∀ c ∈ (chunk size l).dropLast, c.length = size := by
  match l with
  | [] => simp [chunk_nil]
  | x :: xs =>
    rw [chunk_cons size x xs h]
    rcases hd : chunk size ((x :: xs).drop size) with _ | ⟨y, ys⟩
    · simp
    · have hne : (x :: xs).drop size ≠ [] := by
        intro hnil
        rw [hnil, chunk_nil] at hd
        exact List.noConfusion hd
      have hlen : size < (x :: xs).length := List.length_lt_of_drop_ne_nil hne
      intro c hc
      rw [List.dropLast_cons₂] at hc
      rcases List.mem_cons.mp hc with hc1 | hc2
      · subst hc1
        simp only [List.length_take]
        omega
      · have ih := chunk_dropLast_length size h ((x :: xs).drop size)
        rw [hd] at ih
        exact ih c hc2
termination_by l.length
decreasing_by
  simp only [List.length_drop, List.length_cons]
  omega

/-! URL machinery of Sitemap.prototype.toString

reProto is the regular expression /^https?:\/\//i: a URL matching it is
treated as already absolute. The test is a case-insensitive check that
the string begins with http:// or https://. -/

def listStartsCI : List Char → List Char → Bool
  | [], _ => true
  | _ :: _, [] => false
  | a :: ps, b :: ss => (a.toLower == b.toLower) && listStartsCI ps ss

def reProtoTest (s : String) : Bool :=
  listStartsCI "http://".data s.data || listStartsCI "https://".data s.data

/-! The url-join dependency

Modelled from the spec: the url-join npm package used at
sitemap.js line 10 is an external dependency whose source is not part
of this repository. Per the spec, joining uses URL-join semantics:
the two parts are joined with exactly one separating slash and runs of
slashes are collapsed, except that a double slash directly after a
colon (a protocol separator such as ://) is preserved. -/

def headNotSlash : List Char → Bool
  | [] => true
  | c :: _ => c != '/'

/-- collapseGo walks the joined character list carrying the last two
kept characters p2 and p1: a slash directly after a colon becomes the
protocol double slash, further slashes of a run are dropped unless
the run directly follows a colon (in which case exactly two survive),
and every other character is kept. -/
def collapseGo : Option Char → Option Char → List Char → List Char
  | _, _, [] => []
  | p2, p1, c :: rest =>
    if c = '/' then
      if p1 = some ':' then '/' :: '/' :: collapseGo (some '/') (some '/') rest
      else if p1 = some '/' ∧ p2 ≠ some ':' then collapseGo p2 p1 rest
      else '/' :: collapseGo p1 (some '/') rest
    else c :: collapseGo p1 (some c) rest

def collapseSlashes (l : List Char) : List Char :=
  collapseGo none none l

def urljoin (host path : String) : String :=
  String.mk (collapseSlashes (host.data ++ ('/' :: path.data)))

/-- noDoubleSlashAfter p l is true when l holds no two adjacent slashes
whose first slash is not directly preceded by a colon; p is the
character preceding l, if any. -/
def noDoubleSlashAfter : Option Char → List Char → Bool
  | p, c :: rest =>
    if c = '/' ∧ headNotSlash rest = false ∧ p ≠ some ':' then false
    else noDoubleSlashAfter (some c) rest
  | _, [] => true

def doubleSlashOk (s : String) : Bool := noDoubleSlashAfter none s.data

theorem collapseGo_headNotSlash (l : List Char) :
    ∀ p2 : Option Char, p2 ≠ some ':' →
      headNotSlash (collapseGo p2 (some '/') l) = true := by
  induction l with
  | nil =>
    intro p2 hp2
    rfl
  | cons c rest ih =>
    intro p2 hp2
    by_cases hc : c = '/'
    · subst hc
      rw [collapseGo, if_pos rfl, if_neg (by simp), if_pos ⟨rfl, hp2⟩]
      exact ih p2 hp2
    · rw [collapseGo, if_neg hc]
      simp [headNotSlash, hc]

theorem noDoubleSlashAfter_collapseGo (l : List Char) :
    ∀ p2 p1 : Option Char, noDoubleSlashAfter p1 (collapseGo p2 p1 l) = true := by
  induction l with
  | nil =>
    intro p2 p1
    rfl
  | cons c rest ih =>
    intro p2 p1
    by_cases hc : c = '/'
    · subst hc
      rw [collapseGo, if_pos rfl]
      by_cases h1 : p1 = some ':'
      · rw [if_pos h1]
        have hhead : headNotSlash (collapseGo (some '/') (some '/') rest) = true :=
          collapseGo_headNotSlash rest (some '/') (by simp)
        rw [noDoubleSlashAfter, if_neg (by simp [headNotSlash, h1])]
        rw [noDoubleSlashAfter, if_neg (by simp [hhead])]
        exact ih (some '/') (some '/')
      · rw [if_neg h1]
        by_cases h2 : p1 = some '/' ∧ p2 ≠ some ':'
        · rw [if_pos h2]
          exact ih p2 p1
        · rw [if_neg h2]
          have hp1 : p1 ≠ some ':' := h1
          have hhead : headNotSlash (collapseGo p1 (some '/') rest) = true :=
            collapseGo_headNotSlash rest p1 hp1
          rw [noDoubleSlashAfter, if_neg (by simp [hhead])]
          exact ih p1 (some '/')
    · rw [collapseGo, if_neg hc]
      rw [noDoubleSlashAfter, if_neg (by simp [hc])]
      exact ih p1 (some c)

theorem noDoubleSlashAfter_collapseSlashes (l : List Char) :
    ∀ p, noDoubleSlashAfter p (collapseSlashes l) = true := by
  intro p
  have h := noDoubleSlashAfter_collapseGo l none none
  -- the checker result for an output whose head is not a slash does
  -- not depend on the preceding character
  revert h
  cases hout : collapseGo none none l with
  | nil =>
    intro _
    simp [collapseSlashes, hout, noDoubleSlashAfter]
  | cons c rest =>
    intro h
    rw [noDoubleSlashAfter] at h
    rw [collapseSlashes, hout, noDoubleSlashAfter]
    by_cases hcond : c = '/' ∧ headNotSlash rest = false
    · rw [if_pos ⟨hcond.1, hcond.2, by simp⟩] at h
      exact absurd h (by simp)
    · rw [if_neg (by tauto)]
      rw [if_neg (by tauto)] at h
      exact h

theorem doubleSlashOk_urljoin (host path : String) :
    doubleSlashOk (urljoin host path) = true :=
  noDoubleSlashAfter_collapseSlashes _ none

/-! URL entries

A raw entry handed to the Sitemap is either a bare URL string or a
record with a url field plus optional img and links fields. The img
field may hold a string, a single record, or an array of records
(sitemap.js lines 206 to 214 sniff these shapes). links is an array of
records. Sub-records are modelled by their url field; the remaining
protocol metadata is passed through opaquely and plays no role in the
claims. -/

structure SubRec where
  url : String
deriving DecidableEq, Repr

inductive ImgField where
  | str : String → ImgField
  | obj : SubRec → ImgField
  | arr : List SubRec → ImgField
deriving DecidableEq, Repr

structure UrlEntry where
  url : String
  img : Option ImgField := none
  links : Option (List SubRec) := none
deriving DecidableEq, Repr

inductive RawEntry where
  | str : String → RawEntry
  | obj : UrlEntry → RawEntry
deriving DecidableEq, Repr

/-- urlKey is the key extraction of Sitemap.prototype.del lines
118 to 122: the string itself, or the url field of a record. The same
projection reads the primary URL of a raw entry. -/
def urlKey : RawEntry → String
  | .str s => s
  | .obj r => r.url

/-- joinIfRelative is the guarded join applied at sitemap.js lines
203 to 205, 217 to 219 and 224 to 226: a URL matching reProto is left
untouched, any other URL is joined onto the hostname. -/
def joinIfRelative (host u : String) : String :=
  if reProtoTest u then u else urljoin host u

/-- normalizeImg models lines 206 to 221: a string img is promoted to a
one-element array of records (a fresh object, so the original string
is unshared); a single record is promoted to a one-element array of
that same record; then every element url is hostname-joined in place.
The first component is the img value of the smi copy, the second is
what the img field of the original entry holds afterwards (the
original string is unchanged; promoted or mapped records are the very
objects mutated by the forEach). -/
def normalizeImg (host : String) : ImgField → ImgField × ImgField
  | .str s => (.arr [⟨joinIfRelative host s⟩], .str s)
  | .obj o => (.arr [⟨joinIfRelative host o.url⟩], .obj ⟨joinIfRelative host o.url⟩)
  | .arr os =>
    (.arr (os.map fun o => ⟨joinIfRelative host o.url⟩),
     .arr (os.map fun o => ⟨joinIfRelative host o.url⟩))

/-- normalizeEntry models one iteration of the forEach of
Sitemap.prototype.toString (lines 196 to 232). A string element is
wrapped as a record with that url; a record element is shallow-copied
with Object.assign, so its nested img and links records stay shared
with the original of the caller. With a hostname, the primary url of
the copy is joined, the img field is promoted and joined, and every
links record is joined in place. The first component is the smi record
handed to SitemapItem; the second is the state of the original raw
entry of the caller after the iteration (aliased sub-records reflect
the in-place joins, the top-level url and a string img do not). -/
def normalizeEntry (hostname : Option String) (e : RawEntry) : UrlEntry × RawEntry :=
  match e with
  | .str s =>
    match hostname with
    | none => ({ url := s }, e)
    | some h => ({ url := joinIfRelative h s }, e)
  | .obj r =>
    match hostname with
    | none => (r, e)
    | some h =>
      ({ url := joinIfRelative h r.url,
         img := (r.img.map (normalizeImg h)).map Prod.fst,
         links := r.links.map fun ls => ls.map fun l => ⟨joinIfRelative h l.url⟩ },
       .obj { r with
         img := (r.img.map (normalizeImg h)).map Prod.snd,
         links := r.links.map fun ls => ls.map fun l => ⟨joinIfRelative h l.url⟩ })

/-! The Sitemap document -/

/-- Sitemap holds the state of a Sitemap object that the claims are
about: the base hostname, the URL list, and the cache slot
(cacheResetPeriod from the cacheTime argument with 0 meaning
disabled, cache the stored string with the empty string meaning
unset, cacheSetTimestamp the fill time). The constructor-only fields
limit, xslUrl, xmlNs and the external xmlbuilder root are omitted:
they do not enter the cache, deletion or normalization logic. -/
structure Sitemap where
  hostname : Option String := none
  urls : List RawEntry := []
  cacheResetPeriod : Nat := 0
  cache : String := ""
  cacheSetTimestamp : Nat := 0
deriving DecidableEq, Repr

/-- Sitemap.prototype.isCacheValid (lines 86 to 90): truthy when the
reset period is nonzero, the cache string is nonempty, and the fill
time plus the period is at least the current time. -/
def Sitemap.isCacheValid (s : Sitemap) (now : Nat) : Bool :=
  (s.cacheResetPeriod != 0) && (s.cache != "") &&
    decide (s.cacheSetTimestamp + s.cacheResetPeriod ≥ now)

/-- Sitemap.prototype.setCache (lines 95 to 99). -/
def Sitemap.setCache (s : Sitemap) (newCache : String) (now : Nat) : Sitemap :=
  { s with cache := newCache, cacheSetTimestamp := now }

/-- Sitemap.prototype.clearCache (lines 79 to 81). -/
def Sitemap.clearCache (s : Sitemap) : Sitemap :=
  { s with cache := "" }

/-- Sitemap.prototype.add (lines 105 to 107): push returns the new
length; the cache slot is untouched. -/
def Sitemap.add (s : Sitemap) (url : RawEntry) : Sitemap × Nat :=
  ({ s with urls := s.urls ++ [url] }, s.urls.length + 1)

/-- spliceOne l i models Array.prototype.splice(i, 1): the element at
position i is removed; an out-of-range i removes nothing. -/
def spliceOne (l : List RawEntry) (i : Nat) : List RawEntry :=
  l.take i ++ l.drop (i + 1)

/-- Sitemap.prototype.del (lines 113 to 143): gather the indices of
all elements whose url equals the key, then splice each gathered
index in ascending order out of the mutating array, and return how
many indices were gathered. -/
def Sitemap.del (s : Sitemap) (url : RawEntry) : Sitemap × Nat :=
  let key := urlKey url
  let idxs := ((s.urls.enum.filter fun p => urlKey p.2 == key).map Prod.fst)
  ({ s with urls := idxs.foldl spliceOne s.urls }, idxs.length)

/-- Modelled from the spec: serialization of one normalized entry into
its url block. The SitemapItem class lives in lib/sitemap-item.js,
which is not under src; per the spec each entry becomes one url block
holding loc and the populated optional fields as sibling elements. -/
def renderEntry (e : UrlEntry) : String :=
  "<url><loc>" ++ e.url ++ "</loc>" ++
  (match e.img with
   | none => ""
   | some (.str s) => "<image:image><image:loc>" ++ s ++ "</image:loc></image:image>"
   | some (.obj o) => "<image:image><image:loc>" ++ o.url ++ "</image:loc></image:image>"
   | some (.arr os) =>
     String.join (os.map fun o =>
       "<image:image><image:loc>" ++ o.url ++ "</image:loc></image:image>")) ++
  (match e.links with
   | none => ""
   | some ls =>
     String.join (ls.map fun l => "<xhtml:link href=" ++ l.url ++ "/>")) ++
  "</url>"

/-- urlsetOpen is the root element with the default namespace
declarations of sitemap.js lines 178 to 184. -/
def urlsetOpen : String :=
  "<urlset xmlns=\"http://www.sitemaps.org/schemas/sitemap/0.9\"" ++
  " xmlns:news=\"http://www.google.com/schemas/sitemap-news/0.9\"" ++
  " xmlns:xhtml=\"http://www.w3.org/1999/xhtml\"" ++
  " xmlns:mobile=\"http://www.google.com/schemas/sitemap-mobile/1.0\"" ++
  " xmlns:image=\"http://www.google.com/schemas/sitemap-image/1.1\"" ++
  " xmlns:video=\"http://www.google.com/schemas/sitemap-video/1.1\">"

/-- renderBody is the document produced by a cache miss of
Sitemap.prototype.toString: the declaration, the root element, every
entry normalized against the hostname and serialized in insertion
order, and the closing tag. -/
def renderBody (s : Sitemap) : String :=
  "<?xml version=\"1.0\" encoding=\"UTF-8\"?>" ++ urlsetOpen ++
  String.join (s.urls.map fun e => renderEntry (normalizeEntry s.hostname e).fst) ++
  "</urlset>"

/-- renderedUrls is the urls array after a cache-miss render: the
array keeps the same element references, whose nested sub-records the
forEach of toString mutated in place. -/
def Sitemap.renderedUrls (s : Sitemap) : List RawEntry :=
  s.urls.map fun e => (normalizeEntry s.hostname e).snd

/-- Sitemap.prototype.toString (lines 169 to 235): a fresh cache
returns the cached string unchanged; otherwise the document is built,
stored through setCache with the current time, and returned. On a
miss the stored entries reflect the in-place sub-record mutation of
the render loop. -/
def Sitemap.toString (s : Sitemap) (now : Nat) : String × Sitemap :=
  if s.isCacheValid now then (s.cache, s)
  else
    let out := renderBody s
    (out, { s with cache := out, cacheSetTimestamp := now, urls := s.renderedUrls })

/-! The sitemap index builder and the SitemapIndex partitioner -/

def listStarts : List Char → List Char → Bool
  | [], _ => true
  | _ :: _, [] => false
  | a :: ps, b :: ss => (a == b) && listStarts ps ss

def strStarts (p s : String) : Bool := listStarts p.data s.data

/-- buildSitemapIndex (lines 281 to 319) as its line list before the
newline join: declaration, optional stylesheet instruction, the
sitemapindex root (with the default namespaces unless an override is
given), one sitemap block per URL with loc and the optional resolved
lastmod, and the closing tag. The lastmod argument is the value
resolved at lines 298 to 304 (Date handling is host behavior outside
this model; the SitemapIndex constructor passes no lastmod fields, so
it resolves to none for every claim here). -/
def buildSitemapIndexLines (xslUrl xmlNs lastmod : Option String)
    (urls : List String) : List String :=
  ["<?xml version=\"1.0\" encoding=\"UTF-8\"?>"] ++
  (match xslUrl with
   | none => []
   | some x => ["<?xml-stylesheet type=\"text/xsl\" href=\"" ++ x ++ "\"?>"]) ++
  [match xmlNs with
   | none =>
     "<sitemapindex xmlns=\"http://www.sitemaps.org/schemas/sitemap/0.9\" " ++
     "xmlns:mobile=\"http://www.google.com/schemas/sitemap-mobile/1.0\" " ++
     "xmlns:image=\"http://www.google.com/schemas/sitemap-image/1.1\" " ++
     "xmlns:video=\"http://www.google.com/schemas/sitemap-video/1.1\">"
   | some ns => "<sitemapindex " ++ ns ++ ">"] ++
  (urls.map fun u =>
    ["<sitemap>", "<loc>" ++ u ++ "</loc>"] ++
    (match lastmod with
     | none => []
     | some lm => ["<lastmod>" ++ lm ++ "</lastmod>"]) ++
    ["</sitemap>"]).flatten ++
  ["</sitemapindex>"]

def buildSitemapIndex (xslUrl xmlNs lastmod : Option String)
    (urls : List String) : String :=
  String.intercalate "\n" (buildSitemapIndexLines xslUrl xmlNs lastmod urls)

/-- chunkFilenames models the filename assignment of the forEach at
lines 380 to 384: sitemapName, a dash, the post-incremented
sitemapId (starting at the given id), and the extension. -/
def chunkFilenames (sitemapName ext : String) (id : Nat) :
    List (List RawEntry) → List String
  | [] => []
  | _ :: rest => (sitemapName ++ "-" ++ Nat.repr id ++ ext) :: chunkFilenames sitemapName ext (id + 1) rest

/-- SitemapIndexResult gathers everything the SitemapIndex constructor
computes once the target folder passed validation: the chunks, the
chunk filenames (self.sitemaps), the paths the chunk files are
written to, the manifest URLs (hostname slash filename), the manifest
document and its path, and the initial pending-operation counter
(processesCount, chunk count plus one). -/
structure SitemapIndexResult where
  chunks : List (List RawEntry)
  filenames : List String
  writePaths : List String
  sitemapUrls : List String
  indexXml : String
  indexPath : String
  processesCount : Nat
deriving DecidableEq, Repr

/-- sitemapIndexCore models lines 369 to 412 of the SitemapIndex
constructor: chunk the urls with lodash chunk at sitemapSize, name the
chunk files sitemapName-id.xml (plus .gz when gzip) with sequential
ids from 0, write each under targetFolder, reference each as
hostname/filename in the manifest built by buildSitemapIndex (the
SitemapIndex never sets xslUrl or xmlNs on that call beyond its own
xslUrl, and self.xmlNs is never assigned, so the manifest uses the
default namespaces), and write the manifest to
targetFolder/sitemapName-index.xml. -/
def sitemapIndexCore (urls : List RawEntry)
    (targetFolder hostname sitemapName : String)
    (sitemapSize : Nat) (gzip : Bool) : SitemapIndexResult :=
  let chunks := chunk sitemapSize urls
  let ext := ".xml" ++ (if gzip then ".gz" else "")
  let filenames := chunkFilenames sitemapName ext 0 chunks
  let sitemapUrls := filenames.map fun f => hostname ++ "/" ++ f
  { chunks := chunks
    filenames := filenames
    writePaths := filenames.map fun f => targetFolder ++ "/" ++ f
    sitemapUrls := sitemapUrls
    indexXml := buildSitemapIndex none none none sitemapUrls
    indexPath := targetFolder ++ "/" ++ sitemapName ++ "-index.xml"
    processesCount := chunks.length + 1 }

/-- TryOutcome is the outcome of the try block at lines 358 to 361:
fs.statSync throws when the path does not exist; an existing
non-directory reaches the explicit throw of
new err.UndefinedTargetFolder(); an existing directory falls
through. The stat argument encodes the filesystem answer: none for a
missing path, some b for an existing path with isDirectory() = b. -/
inductive TryOutcome where
  | ok
  | statThrew
  | notDirectoryThrown
deriving DecidableEq, Repr

def statTry (stat : Option Bool) : TryOutcome :=
  match stat with
  | none => .statThrew
  | some false => .notDirectoryThrown
  | some true => .ok

inductive ConstructionError where
  | undefinedTargetFolder
  | typeError
deriving DecidableEq, Repr

/-- validateTargetFolder models lines 358 to 364. The catch clause
binds its caught exception to the name err, shadowing the errors
module required at line 9; the caught exception (an fs error or the
UndefinedTargetFolder thrown inside the try) carries no
UndefinedTargetFolder property, so the member access yields undefined
and new undefined() raises a TypeError. Both failure paths therefore
surface as a TypeError, never as UndefinedTargetFolder. -/
def validateTargetFolder (stat : Option Bool) : Except ConstructionError Unit :=
  match statTry stat with
  | .ok => .ok ()
  | .statThrew => .error .typeError
  | .notDirectoryThrown => .error .typeError

/-- createSitemapIndexModel runs the constructor: validation happens
first, synchronously, before any chunking or write is prepared. -/
def createSitemapIndexModel (stat : Option Bool) (urls : List RawEntry)
    (targetFolder hostname sitemapName : String)
    (sitemapSize : Nat) (gzip : Bool) :
    Except ConstructionError SitemapIndexResult :=
  match validateTargetFolder stat with
  | .error e => .error e
  | .ok _ => .ok (sitemapIndexCore urls targetFolder hostname sitemapName sitemapSize gzip)

/-- runCompletions count k models k completed writes reporting in:
each one decrements processesCount once and invokes the completion
callback with (null, true) exactly when the counter is zero after its
decrement (lines 397 to 400 and 416 to 419). The result is the
counter after the k completions together with every callback
invocation that occurred, in order; null is modelled as none. -/
def runCompletions : Int → Nat → Int × List (Option String × Bool)
  | count, 0 => (count, [])
  | count, k + 1 =>
    let c := count - 1
    let calls : List (Option String × Bool) := if c = 0 then [(none, true)] else []
    let r := runCompletions c k
    (r.1, calls ++ r.2)

/-! Supporting lemmas -/

theorem runCompletions_spec (m k : Nat) (hk : k ≤ m) :
    runCompletions (m : Int) k =
      ((m : Int) - k, if 0 < m ∧ k = m then [(none, true)] else []) := by
  induction k generalizing m with
  | zero =>
    rw [runCompletions]
    have h1 : ¬(0 < m ∧ 0 = m) := by omega
    rw [if_neg h1]
    simp
  | succ k ih =>
    obtain ⟨m2, rfl⟩ : ∃ m2, m = m2 + 1 := ⟨m - 1, by omega⟩
    simp only [runCompletions]
    have hc : ((m2 + 1 : Nat) : Int) - 1 = ((m2 : Nat) : Int) := by push_cast; ring
    rw [hc]
    have hk2 : k ≤ m2 := by omega
    rw [ih m2 hk2]
    by_cases hm : m2 = 0
    · subst hm
      have hk0 : k = 0 := by omega
      subst hk0
      simp
    · have hmz : ¬((m2 : Nat) : Int) = 0 := by
        simpa using hm
      rw [if_neg hmz]
      simp only [List.nil_append]
      rw [Prod.mk.injEq]
      constructor
      · push_cast
        ring
      · by_cases hkm : k = m2
        · subst hkm
          simp [Nat.pos_of_ne_zero hm]
        · have h4 : ¬(0 < m2 ∧ k = m2) := by tauto
          have h5 : ¬(0 < m2 + 1 ∧ k + 1 = m2 + 1) := by omega
          rw [if_neg h4, if_neg h5]

theorem chunkFilenames_length (sitemapName ext : String) (id : Nat)
    (cs : List (List RawEntry)) :
    (chunkFilenames sitemapName ext id cs).length = cs.length := by
  induction cs generalizing id with
  | nil => rfl
  | cons c rest ih => simp [chunkFilenames, ih]

theorem chunkFilenames_get (sitemapName ext : String) (id : Nat)
    (cs : List (List RawEntry)) (i : Nat)
    (hi : i < (chunkFilenames sitemapName ext id cs).length) :
    (chunkFilenames sitemapName ext id cs).get ⟨i, hi⟩ =
      sitemapName ++ "-" ++ Nat.repr (id + i) ++ ext := by
  induction cs generalizing id i with
  | nil => simp [chunkFilenames] at hi
  | cons c rest ih =>
    cases i with
    | zero => simp [chunkFilenames]
    | succ j =>
      have hj : j < (chunkFilenames sitemapName ext (id + 1) rest).length := by
        have := hi
        simp only [chunkFilenames, List.length_cons] at this
        omega
      have hstep : (chunkFilenames sitemapName ext id (c :: rest)).get ⟨j + 1, hi⟩ =
          (chunkFilenames sitemapName ext (id + 1) rest).get ⟨j, hj⟩ := by
        simp [chunkFilenames]
      rw [hstep, ih (id + 1) j hj]
      have harith : id + 1 + j = id + (j + 1) := by omega
      rw [harith]

theorem listStarts_append (p r : List Char) : listStarts p (p ++ r) = true := by
  induction p with
  | nil => rfl
  | cons a ps ih => simp [listStarts, ih]

theorem strStarts_append (p r : String) : strStarts p (p ++ r) = true := by
  have h := listStarts_append p.data r.data
  simpa [strStarts, String.data_append] using h

theorem filter_locs_blocks (urls : List String) :
    ((urls.map fun u => ["<sitemap>", "<loc>" ++ u ++ "</loc>", "</sitemap>"]).flatten).filter
      (fun s => strStarts "<loc>" s) = urls.map fun u => "<loc>" ++ u ++ "</loc>" := by
  induction urls with
  | nil => rfl
  | cons u us ih =>
    simp only [List.map_cons, List.flatten_cons, List.filter_append]
    rw [ih]
    have h1 : strStarts "<loc>" "<sitemap>" = false := by decide
    have h2 : strStarts "<loc>" ("<loc>" ++ u ++ "</loc>") = true := by
      have h := strStarts_append "<loc>" (u ++ "</loc>")
      rwa [← String.append_assoc] at h
    have h3 : strStarts "<loc>" "</sitemap>" = false := by decide
    simp [List.filter, h1, h2, h3]

theorem buildIndexLines_filter_locs (urls : List String) :
    (buildSitemapIndexLines none none none urls).filter (fun s => strStarts "<loc>" s)
      = urls.map fun u => "<loc>" ++ u ++ "</loc>" := by
  have hblocks := filter_locs_blocks urls
  simp only [buildSitemapIndexLines, List.nil_append, List.filter_append]
  rw [List.append_assoc] at *
  have hmap : (urls.map fun u =>
      ["<sitemap>", "<loc>" ++ u ++ "</loc>"] ++
      (match (none : Option String) with
       | none => []
       | some lm => ["<lastmod>" ++ lm ++ "</lastmod>"]) ++ ["</sitemap>"]) =
      urls.map fun u => ["<sitemap>", "<loc>" ++ u ++ "</loc>", "</sitemap>"] := by
    simp
  rw [hmap, hblocks]
  have hh1 : strStarts "<loc>" "<?xml version=\"1.0\" encoding=\"UTF-8\"?>" = false := by decide
  have hh2 : strStarts "<loc>"
      "<sitemapindex xmlns=\"http://www.sitemaps.org/schemas/sitemap/0.9\" xmlns:mobile=\"http://www.google.com/schemas/sitemap-mobile/1.0\" xmlns:image=\"http://www.google.com/schemas/sitemap-image/1.1\" xmlns:video=\"http://www.google.com/schemas/sitemap-video/1.1\">" = false := by decide
  have hh3 : strStarts "<loc>" "</sitemapindex>" = false := by decide
  simp [List.filter, hh1, hh2, hh3]

theorem renderBody_ne_empty (s : Sitemap) : renderBody s ≠ "" := by
  intro h
  have hlen : (renderBody s).length = 0 := by rw [h]; rfl
  rw [renderBody] at hlen
  rw [String.length_append, String.length_append, String.length_append] at hlen
  have hpos : 0 < ("<?xml version=\"1.0\" encoding=\"UTF-8\"?>" : String).length := by decide
  omega

/-! Claim theorems -/

/-- C1: for every URL list and every positive partitionSize, the
partitioner splits the list into contiguous chunks in input order:
the chunk count equals ceil(N / partitionSize), every chunk is
nonempty with at most partitionSize entries, every chunk but the last
has exactly partitionSize entries, concatenating all chunks in order
reproduces the original list exactly, and an empty input yields zero
chunks. -/
theorem C1_partition (urls : List RawEntry)
    (targetFolder hostname sitemapName : String)
    (sitemapSize : Nat) (gzip : Bool) (hsize : 0 < sitemapSize) :
    let r := sitemapIndexCore urls targetFolder hostname sitemapName sitemapSize gzip
    r.chunks.flatten = urls ∧
    r.chunks.length = (urls.length + sitemapSize - 1) / sitemapSize ∧
    (∀ c ∈ r.chunks, 0 < c.length ∧ c.length ≤ sitemapSize) ∧
    (∀ c ∈ r.chunks.dropLast, c.length = sitemapSize) ∧
    (urls = [] → r.chunks = []) := by
  intro r
  have h : sitemapSize ≠ 0 := by omega
  have hr : r.chunks = chunk sitemapSize urls := rfl
  rw [hr]
  refine ⟨chunk_flatten _ h _, chunk_length _ h _, chunk_mem_length _ h _,
    chunk_dropLast_length _ h _, ?_⟩
  intro hnil
  rw [hnil]
  exact chunk_nil _

theorem C1_partition_witness :
    0 < 2 ∧
    (let r := sitemapIndexCore [RawEntry.str "a", RawEntry.str "b", RawEntry.str "c"]
        "t" "http://h" "sitemap" 2 false
     r.chunks.flatten = [RawEntry.str "a", RawEntry.str "b", RawEntry.str "c"] ∧
     r.chunks.length = ([RawEntry.str "a", RawEntry.str "b", RawEntry.str "c"].length + 2 - 1) / 2 ∧
     (∀ c ∈ r.chunks, 0 < c.length ∧ c.length ≤ 2) ∧
     (∀ c ∈ r.chunks.dropLast, c.length = 2) ∧
     ([RawEntry.str "a", RawEntry.str "b", RawEntry.str "c"] = [] → r.chunks = [])) :=
  ⟨by decide,
   C1_partition [RawEntry.str "a", RawEntry.str "b", RawEntry.str "c"]
     "t" "http://h" "sitemap" 2 false (by decide)⟩

/-- C5: the chunk at index i gets the filename sitemapName-i.xml (plus
.gz when gzip is set), with the sequential id starting at 0 and
incrementing per chunk; the manifest references every chunk filename
as hostname/filename in the same order (its loc lines are exactly
those URLs in order), and the manifest path is
targetFolder/sitemapName-index.xml. -/
theorem C5_filenames (urls : List RawEntry)
    (targetFolder hostname sitemapName : String)
    (sitemapSize : Nat) (gzip : Bool) :
    let r := sitemapIndexCore urls targetFolder hostname sitemapName sitemapSize gzip
    r.filenames.length = r.chunks.length ∧
    (∀ i, (hi : i < r.filenames.length) →
      r.filenames.get ⟨i, hi⟩ =
        sitemapName ++ "-" ++ Nat.repr i ++ (if gzip then ".xml.gz" else ".xml")) ∧
    r.sitemapUrls = r.filenames.map (fun f => hostname ++ "/" ++ f) ∧
    r.writePaths = r.filenames.map (fun f => targetFolder ++ "/" ++ f) ∧
    r.indexXml = buildSitemapIndex none none none r.sitemapUrls ∧
    (buildSitemapIndexLines none none none r.sitemapUrls).filter
        (fun s => strStarts "<loc>" s)
      = r.sitemapUrls.map (fun u => "<loc>" ++ u ++ "</loc>") ∧
    r.indexPath = targetFolder ++ "/" ++ sitemapName ++ "-index.xml" := by
  intro r
  have hext : (".xml" ++ (if gzip then ".gz" else "")) =
      (if gzip then ".xml.gz" else ".xml") := by
    cases gzip <;> rfl
  refine ⟨chunkFilenames_length _ _ _ _, ?_, rfl, rfl, rfl,
    buildIndexLines_filter_locs _, rfl⟩
  intro i hi
  have hget := chunkFilenames_get sitemapName (".xml" ++ (if gzip then ".gz" else ""))
    0 (chunk sitemapSize urls) i hi
  show (chunkFilenames sitemapName (".xml" ++ (if gzip then ".gz" else ""))
      0 (chunk sitemapSize urls)).get ⟨i, hi⟩ =
    sitemapName ++ "-" ++ Nat.repr i ++ (if gzip then ".xml.gz" else ".xml")
  rw [hget]
  have h0 : 0 + i = i := Nat.zero_add i
  rw [h0, hext]

theorem C5_filenames_witness :
    (sitemapIndexCore [RawEntry.str "a", RawEntry.str "b", RawEntry.str "c"]
        "t" "http://h" "sitemap" 2 true).filenames.get ⟨1, by decide⟩ =
      "sitemap" ++ "-" ++ Nat.repr 1 ++ ".xml.gz" := by
  have h := C5_filenames [RawEntry.str "a", RawEntry.str "b", RawEntry.str "c"]
    "t" "http://h" "sitemap" 2 true
  exact h.2.1 1 (by decide)

/-- C6: the pending-operation counter starts at the number of chunks
plus one; after any k of the writes have reported (k at most that
total), the counter equals the initial value minus k, and the
completion callback has been invoked exactly once, as (null, true),
precisely when every chunk write and the index write have reported,
and never before that point and never twice. -/
theorem C6_completion (urls : List RawEntry)
    (targetFolder hostname sitemapName : String)
    (sitemapSize : Nat) (gzip : Bool) :
    let r := sitemapIndexCore urls targetFolder hostname sitemapName sitemapSize gzip
    r.processesCount = r.chunks.length + 1 ∧
    ∀ k, k ≤ r.processesCount →
      runCompletions (r.processesCount : Int) k =
        ((r.processesCount : Int) - k,
         if k = r.processesCount then [(none, true)] else []) := by
  intro r
  refine ⟨rfl, ?_⟩
  intro k hk
  rw [runCompletions_spec _ _ hk]
  have hpos : 0 < r.processesCount := by
    have hp : r.processesCount = (chunk sitemapSize urls).length + 1 := rfl
    omega
  have h2 : (0 < r.processesCount ∧ k = r.processesCount) ↔ (k = r.processesCount) := by
    constructor
    · intro hx
      exact hx.2
    · intro hx
      exact ⟨hpos, hx⟩
  simp only [h2]

theorem C6_completion_witness :
    (sitemapIndexCore [RawEntry.str "a", RawEntry.str "b", RawEntry.str "c"]
        "t" "http://h" "sitemap" 2 false).processesCount = 3 ∧
    runCompletions (3 : Int) 2 = (1, []) ∧
    runCompletions (3 : Int) 3 = (0, [(none, true)]) := by
  have h := C6_completion [RawEntry.str "a", RawEntry.str "b", RawEntry.str "c"]
    "t" "http://h" "sitemap" 2 false
  have hp : (sitemapIndexCore [RawEntry.str "a", RawEntry.str "b", RawEntry.str "c"]
      "t" "http://h" "sitemap" 2 false).processesCount = 3 := by decide
  refine ⟨hp, ?_, ?_⟩
  · have h2 := h.2 2 (by rw [hp]; omega)
    rw [hp] at h2
    simpa using h2
  · have h3 := h.2 3 (by rw [hp])
    rw [hp] at h3
    simpa using h3

/-- C10: for an empty input URL list the partitioner creates zero
chunks, zero chunk files and zero chunk-file paths, but still targets
the manifest at targetFolder/sitemapName-index.xml; the manifest line
list is exactly the declaration, the root open tag and the root close
tag, with zero sitemap entries and no loc line; the pending counter
starts at 1, and the single index-write completion fires the callback
exactly once, as (null, true). -/
theorem C10_emptyInput (targetFolder hostname sitemapName : String)
    (sitemapSize : Nat) (gzip : Bool) :
    let r : SitemapIndexResult :=
      sitemapIndexCore [] targetFolder hostname sitemapName sitemapSize gzip
    r.chunks = [] ∧ r.filenames = [] ∧ r.writePaths = [] ∧
    r.processesCount = 1 ∧
    r.indexPath = targetFolder ++ "/" ++ sitemapName ++ "-index.xml" ∧
    buildSitemapIndexLines none none none r.sitemapUrls =
      ["<?xml version=\"1.0\" encoding=\"UTF-8\"?>",
       "<sitemapindex xmlns=\"http://www.sitemaps.org/schemas/sitemap/0.9\" xmlns:mobile=\"http://www.google.com/schemas/sitemap-mobile/1.0\" xmlns:image=\"http://www.google.com/schemas/sitemap-image/1.1\" xmlns:video=\"http://www.google.com/schemas/sitemap-video/1.1\">",
       "</sitemapindex>"] ∧
    (buildSitemapIndexLines none none none r.sitemapUrls).filter
        (fun s => strStarts "<loc>" s) = [] ∧
    runCompletions ((r.processesCount : Nat) : Int) 1 = (0, [(none, true)]) := by
  intro r
  have hc : r.chunks = [] := chunk_nil sitemapSize
  have hf : r.filenames = [] := by
    show chunkFilenames sitemapName (".xml" ++ (if gzip then ".gz" else "")) 0
      (chunk sitemapSize []) = []
    rw [chunk_nil]
    rfl
  have hw : r.writePaths = [] := by
    show (chunkFilenames sitemapName (".xml" ++ (if gzip then ".gz" else "")) 0
      (chunk sitemapSize [])).map (fun f => targetFolder ++ "/" ++ f) = []
    rw [chunk_nil]
    rfl
  have hsu : r.sitemapUrls = [] := by
    show (chunkFilenames sitemapName (".xml" ++ (if gzip then ".gz" else "")) 0
      (chunk sitemapSize [])).map (fun f => hostname ++ "/" ++ f) = []
    rw [chunk_nil]
    rfl
  have hp : r.processesCount = 1 := by
    show (chunk sitemapSize ([] : List RawEntry)).length + 1 = 1
    rw [chunk_nil]
    rfl
  refine ⟨hc, hf, hw, hp, rfl, ?_, ?_, ?_⟩
  · rw [hsu]
    rfl
  · rw [hsu]
    simpa using buildIndexLines_filter_locs []
  · rw [hp]
    decide

/-- C2: normalization during render leaves the primary URL untouched
when it matches the case-insensitive pattern of an absolute http or
https URL; when a hostname is configured and the URL does not match,
the rendered URL is the hostname joined with the path, and such a
join never yields two adjacent slashes outside a protocol separator
(so the parts meet on exactly one slash); with no hostname configured
every URL passes through unchanged regardless of form. -/
theorem C2_urlNormalization (h u : String) (e : RawEntry) :
    ((normalizeEntry none e).fst.url = urlKey e) ∧
    (reProtoTest (urlKey e) = true →
      (normalizeEntry (some h) e).fst.url = urlKey e) ∧
    (reProtoTest (urlKey e) = false →
      (normalizeEntry (some h) e).fst.url = urljoin h (urlKey e)) ∧
    doubleSlashOk (urljoin h u) = true := by
  refine ⟨?_, ?_, ?_, doubleSlashOk_urljoin h u⟩
  · cases e <;> rfl
  · intro habs
    cases e <;> simp [normalizeEntry, urlKey, joinIfRelative, habs] at *
  · intro hrel
    cases e <;> simp [normalizeEntry, urlKey, joinIfRelative, hrel] at *

theorem C2_urlNormalization_witness :
    reProtoTest "HTTPS://other.com/x" = true ∧
    reProtoTest "page1" = false ∧
    (normalizeEntry (some "http://example.com")
        (RawEntry.str "HTTPS://other.com/x")).fst.url = "HTTPS://other.com/x" ∧
    (normalizeEntry (some "http://example.com")
        (RawEntry.str "page1")).fst.url = urljoin "http://example.com" "page1" ∧
    urljoin "http://example.com" "page1" = "http://example.com/page1" := by
  refine ⟨by decide, by decide, ?_, ?_, by decide⟩
  · exact (C2_urlNormalization "http://example.com" ""
      (RawEntry.str "HTTPS://other.com/x")).2.1 (by decide)
  · exact (C2_urlNormalization "http://example.com" ""
      (RawEntry.str "page1")).2.2.1 (by decide)

/-- C8 counterexample: with no hostname configured a single-string
images value is not promoted at all: it stays a bare string rather
than becoming the one-element record sequence the claim requires for
every entry carrying an images field. -/
theorem C8_counterexample :
    (normalizeEntry none
        (RawEntry.obj { url := "p", img := some (ImgField.str "i.png") })).fst.img
      = some (ImgField.str "i.png") ∧
    ImgField.str "i.png" ≠ ImgField.arr [⟨"i.png"⟩] :=
  ⟨rfl, by decide⟩

/-- C8 amended: when a hostname is configured, normalization promotes
a single-string images value to the one-element sequence holding a
record with that url, promotes a single record to a one-element
sequence, keeps a sequence elementwise, and rewrites every element
url by exactly the primary-URL rule joinIfRelative (untouched when
absolute, hostname-joined when relative); with no hostname configured
the images field passes through unchanged, unpromoted. -/
theorem C8_images (h : String) (r : UrlEntry) :
    ((normalizeEntry (some h) (RawEntry.obj r)).fst.img =
      match r.img with
      | none => none
      | some (.str s) => some (.arr [⟨joinIfRelative h s⟩])
      | some (.obj o) => some (.arr [⟨joinIfRelative h o.url⟩])
      | some (.arr os) => some (.arr (os.map fun o => ⟨joinIfRelative h o.url⟩))) ∧
    (normalizeEntry none (RawEntry.obj r)).fst.img = r.img := by
  refine ⟨?_, rfl⟩
  cases himg : r.img with
  | none => simp [normalizeEntry, himg]
  | some f => cases f <;> simp [normalizeEntry, normalizeImg, himg]

/-- C9 counterexample: rendering with a configured hostname rewrites
the nested image sub-record of the original entry of the caller in
place: after one normalization the original no longer equals what the
caller supplied. -/
theorem C9_counterexample :
    (normalizeEntry (some "http://ex.com")
        (RawEntry.obj { url := "p", img := some (ImgField.arr [⟨"i.png"⟩]) })).snd
      ≠ RawEntry.obj { url := "p", img := some (ImgField.arr [⟨"i.png"⟩]) } := by
  decide

/-- C9 amended: the normalizer shallow-copies the top-level record, so
the primary url of the original entry is never modified, a bare
string entry is never modified, and with no hostname configured the
original entry is left fully unchanged; nested image and link
sub-records, however, are shared with the copy and are rewritten in
place when hostname joining applies. -/
theorem C9_frame (hostname : Option String) (e : RawEntry) :
    ((normalizeEntry none e).snd = e) ∧
    (urlKey (normalizeEntry hostname e).snd = urlKey e) ∧
    (∀ s, (normalizeEntry hostname (RawEntry.str s)).snd = RawEntry.str s) := by
  refine ⟨?_, ?_, ?_⟩
  · cases e <;> rfl
  · cases e <;> cases hostname <;> rfl
  · intro s
    cases hostname <;> rfl

/-- C3: evaluation of del at the input of the claim example. After two
adds of the same URL the gathered indices are 0 and 1; the first
splice shifts the survivor to position 0, so the second splice at the
stale index 1 removes nothing. del returns 2 yet one occurrence of
the URL survives, contradicting both the remove-all contract and the
returned removal count. -/
theorem C3_del_eval :
    Sitemap.del { urls := [RawEntry.str "page1", RawEntry.str "page1"] }
        (RawEntry.str "page1")
      = ({ urls := [RawEntry.str "page1"] }, 2) := by
  decide

/-- C7: evaluation of the target-folder validation. A missing path and
an existing non-directory both abort construction synchronously and
before any partitioning, but with a TypeError instead of the
UndefinedTargetFolder error the claim names, because the catch
parameter err shadows the errors module, so err.UndefinedTargetFolder
is undefined inside the catch block; an existing directory passes
validation and construction proceeds. No input makes construction
fail with UndefinedTargetFolder. -/
theorem C7_validation_eval :
    validateTargetFolder none = Except.error ConstructionError.typeError ∧
    validateTargetFolder (some false) = Except.error ConstructionError.typeError ∧
    validateTargetFolder (some true) = Except.ok () ∧
    ConstructionError.typeError ≠ ConstructionError.undefinedTargetFolder ∧
    (∀ stat : Option Bool,
      createSitemapIndexModel stat [] "target" "http://h" "sitemap" 1 false ≠
        Except.error ConstructionError.undefinedTargetFolder) := by
  refine ⟨rfl, rfl, rfl, by decide, ?_⟩
  intro stat
  cases stat with
  | none => simp [createSitemapIndexModel, validateTargetFolder, statTry]
  | some b =>
    cases b <;> simp [createSitemapIndexModel, validateTargetFolder, statTry]

/-- C4 amended: isCacheValid is true exactly when the reset period is
positive, the cached string is nonempty, and the current time is at
most the fill time plus the period; when it is true, toString returns
the cached string and leaves the state unchanged; and two renders
within cacheTTL of each other with no operation between them return
byte-identical output provided the cache is not stale at the first
render, i.e. the cached string is empty or equals the current
document body (in particular whenever the first render recomputes). -/
theorem C4_cache (s : Sitemap) (now t1 t2 : Nat) :
    (s.isCacheValid now = true ↔
      (0 < s.cacheResetPeriod ∧ s.cache ≠ "" ∧
        now ≤ s.cacheSetTimestamp + s.cacheResetPeriod)) ∧
    (s.isCacheValid now = true → s.toString now = (s.cache, s)) ∧
    (0 < s.cacheResetPeriod → t2 ≤ t1 + s.cacheResetPeriod →
      (s.cache = "" ∨ s.cache = renderBody s) →
      ((s.toString t1).snd.toString t2).fst = (s.toString t1).fst) := by
  refine ⟨?_, ?_, ?_⟩
  · simp only [Sitemap.isCacheValid, Bool.and_eq_true, bne_iff_ne, decide_eq_true_eq,
      ge_iff_le]
    constructor
    · rintro ⟨⟨h1, h2⟩, h3⟩
      exact ⟨Nat.pos_of_ne_zero h1, h2, h3⟩
    · rintro ⟨h1, h2, h3⟩
      exact ⟨⟨by omega, h2⟩, h3⟩
  · intro hv
    simp only [Sitemap.toString, if_pos hv]
  · intro hp hle hcoh
    by_cases hv1 : s.isCacheValid t1 = true
    · have hcache : s.cache ≠ "" := by
        simp only [Sitemap.isCacheValid, Bool.and_eq_true, bne_iff_ne] at hv1
        exact hv1.1.2
      have hcoh2 : s.cache = renderBody s := by
        rcases hcoh with hemp | heq
        · exact absurd hemp hcache
        · exact heq
      simp only [Sitemap.toString, if_pos hv1]
      by_cases hv2 : s.isCacheValid t2 = true
      · simp only [Sitemap.toString, if_pos hv2]
      · simp only [Sitemap.toString, if_neg hv2]
        exact hcoh2.symm
    · simp only [Sitemap.toString, if_neg hv1]
      show (Sitemap.toString
        { s with cache := renderBody s, cacheSetTimestamp := t1,
                 urls := s.renderedUrls } t2).fst = renderBody s
      have hv2 : Sitemap.isCacheValid
          { s with cache := renderBody s, cacheSetTimestamp := t1,
                   urls := s.renderedUrls } t2 = true := by
        show ((s.cacheResetPeriod != 0) && ((renderBody s) != "") &&
          decide (t1 + s.cacheResetPeriod ≥ t2)) = true
        rw [Bool.and_eq_true, Bool.and_eq_true]
        refine ⟨⟨?_, ?_⟩, ?_⟩
        · simp only [bne_iff_ne, ne_eq]
          omega
        · simp only [bne_iff_ne, ne_eq]
          exact renderBody_ne_empty s
        · simp only [ge_iff_le, decide_eq_true_eq]
          exact hle
      simp only [Sitemap.toString, if_pos hv2]

theorem C4_cache_witness :
    let s : Sitemap := { hostname := none, urls := [RawEntry.str "a"],
                         cacheResetPeriod := 10 }
    (s.isCacheValid 0 = true ↔
      (0 < s.cacheResetPeriod ∧ s.cache ≠ "" ∧
        0 ≤ s.cacheSetTimestamp + s.cacheResetPeriod)) ∧
    (0 < s.cacheResetPeriod ∧ (7 : Nat) ≤ 0 + s.cacheResetPeriod ∧
      (s.cache = "" ∨ s.cache = renderBody s)) ∧
    ((s.toString 0).snd.toString 7).fst = (s.toString 0).fst := by
  intro s
  refine ⟨(C4_cache s 0 0 7).1, ⟨by decide, by decide, Or.inl rfl⟩, ?_⟩
  exact (C4_cache s 0 0 7).2.2 (by decide) (by decide) (Or.inl rfl)

set_option maxRecDepth 8192 in
/-- C4 counterexample: a reachable state refuting the unconditional
two-render property of the claim. Fill the cache with a render, then
add an entry (add does not clear the cache), then render while the
cache is still fresh: this returns the stale cached string. A further
render 7 time units later, within the cacheTTL of 10 of the previous
render but past the cache expiry, recomputes over the grown entry
list. The two renders are within cacheTTL of each other with no
operation between them, yet return different bytes. -/
theorem C4_counterexample :
    let s0 : Sitemap := { hostname := none, urls := [RawEntry.str "a"],
                          cacheResetPeriod := 10 }
    let r1 := s0.toString 0
    let s2 := (r1.snd.add (RawEntry.str "b")).fst
    let r2 := s2.toString 5
    let r3 := r2.snd.toString 12
    (12 : Nat) ≤ 5 + s0.cacheResetPeriod ∧ r2.fst ≠ r3.fst := by
  intro s0 r1 s2 r2 r3
  exact ⟨by decide, by decide⟩
